import Mathlib

/-!
Shallow embedding of `roles/openshift_health_checker/openshift_checks/disk_availability.py`
(class `DiskAvailability`).

Modelling conventions:
* Python numbers (ints and floats) are modelled as exact rationals `Q`
  (integer numerator, positive denominator, compared by cross
  multiplication).  All values the check manipulates — byte counts from
  `ansible_mounts`, the static tables, and user override gigabyte values —
  are exact in this model; binary floating-point rounding of
  non-representable literals is outside the model.
* Python dicts are association lists; the static tables are literal lists
  in the source's declaration order, and `ansible_mounts` re-indexing uses
  last-wins insertion like a dict comprehension.
* `tempfile.gettempdir()` is a parameter `tmpdir` of the table.
* Exceptions are an `Except RunErr` result: `RunErr.checkException`
  stands for `OpenShiftCheckException` raised by `free_bytes`, and
  `RunErr.valueError` for the `ValueError` Python's `max()` raises on an
  empty sequence.
* The pass result `{}` is `Option.none`; the fail dict
  `{'failed': True, 'msg': ...}` is `some ⟨true, msg⟩`.
-/

namespace DiskAvail

/-- Exact rational number: `num / den` with `den` positive.  Stands for a
Python int or float value.  Representations are not normalised; all
operations used by the embedding are value-determined. -/
structure Q where
  num : Int
  den : Nat
  den_pos : 0 < den
deriving DecidableEq

/-- Embed an integer literal. -/
def qInt (n : Int) : Q := ⟨n, 1, Nat.one_pos⟩

instance : OfNat Q n := ⟨qInt n⟩

/-- Python `a < b` on numbers, by exact cross multiplication. -/
def qLt (a b : Q) : Bool := a.num * (b.den : Int) < b.num * (a.den : Int)

/-- Python `a <= b` on numbers. -/
def qLe (a b : Q) : Bool := !(qLt b a)

/-- Python truthiness of a number: `bool(x)` is false exactly for zero. -/
def qNZ (a : Q) : Bool := a.num ≠ 0

/-- Multiply a number by an integer (used for the `* 10**9` gigabyte to
byte conversion). -/
def qMulInt (a : Q) (k : Int) : Q := ⟨a.num * k, a.den, a.den_pos⟩

/-- Round `p / q` (for `q > 0`) to the nearest integer, ties to even:
the rounding Python's float formatting applies. -/
def roundHalfEvenDiv (p q : Int) : Int :=
  let f := Int.fdiv p q
  let r := p - f * q
  if 2 * r < q then f
  else if q < 2 * r then f + 1
  else if f % 2 = 0 then f else f + 1

/-- Render an integer count of tenths as a decimal string with one
fractional digit, e.g. `80 ↦ "8.0"`, `150 ↦ "15.0"`. -/
def formatTenths (t : Int) : String :=
  if t < 0 then "-" ++ toString ((-t).toNat / 10) ++ "." ++ toString ((-t).toNat % 10)
  else toString (t.toNat / 10) ++ "." ++ toString (t.toNat % 10)

/-- The gigabyte figure the source renders with
`'\x7b:.1f\x7d'.format(float(b) / 10**9)`: the byte count divided by
`10^9`, rounded to one decimal place. -/
def gbDisplay (b : Q) : String :=
  formatTenths (roundHalfEvenDiv (b.num * 10) ((b.den : Int) * 10 ^ 9))

/-- Python dict lookup on an association list (keys unique by
construction). -/
def lookupA {α : Type} : List (String × α) → String → Option α
  | [], _ => none
  | (k, v) :: rest, key => if k = key then some v else lookupA rest key

/-- Python `d.get(key, dflt)`. -/
def getD {α : Type} (d : List (String × α)) (key : String) (dflt : α) : α :=
  (lookupA d key).getD dflt

/-- Python dict insertion: replace an existing key, else append. -/
def insertA {α : Type} : List (String × α) → String → α → List (String × α)
  | [], k, v => [(k, v)]
  | (k1, v1) :: rest, k, v =>
    if k1 = k then (k, v) :: rest else (k1, v1) :: insertA rest k v

/-- Code-point comparison of character lists: Python string `<=`. -/
def charListLe : List Char → List Char → Bool
  | [], _ => true
  | _ :: _, [] => false
  | a :: as, b :: bs =>
    if a.toNat < b.toNat then true
    else if b.toNat < a.toNat then false
    else charListLe as bs

/-- Python string `<=`. -/
def strLe (a b : String) : Bool := charListLe a.data b.data

/-- Insert into a sorted list of strings (helper for `sortStrings`). -/
def insertSorted (s : String) : List String → List String
  | [] => [s]
  | t :: rest => if strLe s t then s :: t :: rest else t :: insertSorted s rest

/-- Python `sorted` on strings (insertion sort; stable, ascending by code
point, which is Python's string order). -/
def sortStrings : List String → List String
  | [] => []
  | s :: rest => insertSorted s (sortStrings rest)

/-- Python `', '.join(items)`. -/
def joinComma : List String → String
  | [] => ""
  | x :: xs => xs.foldl (fun acc v => acc ++ ", " ++ v) x

/-- POSIX `os.path.dirname`: keep everything up to the last slash, then
strip trailing slashes unless the result is all slashes. -/
def dirname (p : String) : String :=
  let head := ((p.data.reverse.dropWhile (fun c => c ≠ '/')).reverse)
  let head2 :=
    if head ≠ [] ∧ ¬ head.all (fun c => c = '/')
    then (head.reverse.dropWhile (fun c => c = '/')).reverse
    else head
  String.mk head2

/-- One record of `ansible_mounts`.  Only the two fields the check reads
are modelled; `size_available = none` stands for a record missing that
key (the `KeyError` branch of `free_bytes`). -/
structure Mount where
  mount : String
  size_available : Option Q
deriving DecidableEq

/-- The re-indexing `\x7bmount['mount']: mount for mount in ansible_mounts\x7d`
at the top of `run` (dict comprehension: later records win). -/
def reindexMounts (ms : List Mount) : List (String × Mount) :=
  ms.foldl (fun acc m => insertA acc m.mount m) []

/-- Python exceptions that can escape `run`. -/
inductive RunErr where
  /-- `OpenShiftCheckException`, raised by `free_bytes`. -/
  | checkException (msg : String)
  /-- `ValueError`, raised by `max()` on an empty sequence. -/
  | valueError
deriving DecidableEq

instance {ε α : Type} [DecidableEq ε] [DecidableEq α] : DecidableEq (Except ε α)
  | .ok a, .ok b =>
    if h : a = b then .isTrue (by rw [h]) else .isFalse (by intro hc; cases hc; exact h rfl)
  | .error a, .error b =>
    if h : a = b then .isTrue (by rw [h]) else .isFalse (by intro hc; cases hc; exact h rfl)
  | .ok _, .error _ => .isFalse (by intro hc; cases hc)
  | .error _, .ok _ => .isFalse (by intro hc; cases hc)

/-- Python `max(iterable)`: `ValueError` on an empty sequence, else the
first element that is strictly greater than everything before it. -/
def pyMax (l : List Q) : Except RunErr Q :=
  match l with
  | [] => .error .valueError
  | x :: xs => .ok (xs.foldl (fun acc v => if qLt acc v then v else acc) x)

/-- The value of `openshift_check_min_host_disk_gb` as supplied by the
user: either a bare number or a nested mapping path → role → gigabytes.
The unset default `\x7b\x7d` is `table []`. -/
inductive UserConf where
  | num (x : Q)
  | table (t : List (String × List (String × Q)))
deriving DecidableEq

/-- The `float(user_config)` probe in `run`: a number converts to itself;
a dict raises `TypeError`, the only exception the surrounding
`try/except TypeError` catches. -/
def pyFloat : UserConf → Except Unit Q
  | .num x => .ok x
  | .table _ => .error ()

/-- Lines 61–75 of `run`: try `float(user_config)`; on success replace the
config by a `'/var'`-only mapping giving the number to the three roles; on
the `TypeError` a dict raises (see `pyFloat`), keep the nested dict as
is. -/
def normalizeUserConf : UserConf → List (String × List (String × Q))
  | .num x => [("/var", [("masters", x), ("nodes", x), ("etcd", x)])]
  | .table t => t

/-- `DiskAvailability.recommended_disk_space_bytes`: the static install
requirement table, keyed by path then role, in declared order.
`tmpdir` stands for `tempfile.gettempdir()`. -/
def recommended_disk_space_bytes (tmpdir : String) : List (String × List (String × Q)) :=
  [ ("/var",
      [ ("masters", qInt (40 * 10 ^ 9)),
        ("nodes", qInt (15 * 10 ^ 9)),
        ("etcd", qInt (20 * 10 ^ 9)) ]),
    ("/usr/local/bin",
      [ ("masters", qInt (1 * 10 ^ 9)),
        ("nodes", qInt (1 * 10 ^ 9)),
        ("etcd", qInt (1 * 10 ^ 9)) ]),
    (tmpdir,
      [ ("masters", qInt (1 * 10 ^ 9)),
        ("nodes", qInt (1 * 10 ^ 9)),
        ("etcd", qInt (1 * 10 ^ 9)) ]) ]

/-- `DiskAvailability.recommended_disk_upgrade_bytes`: the upgrade-context
requirement table. -/
def recommended_disk_upgrade_bytes : List (String × List (String × Q)) :=
  [ ("/var",
      [ ("masters", qInt (10 * 10 ^ 9)),
        ("nodes", qInt (5 * 10 ^ 9)),
        ("etcd", qInt (5 * 10 ^ 9)) ]) ]

/-- The union of roles named anywhere in the install table (the
`active_groups` set built by `is_active`). -/
def active_groups (tmpdir : String) : List String :=
  ((recommended_disk_space_bytes tmpdir).map (fun e => e.2.map Prod.fst)).flatten

/-- `DiskAvailability.is_active`: the inherited activation predicate
(opaque to this file, passed in as `superActive`) conjoined with a
nonempty intersection between the host's `group_names` and the roles of
the install table. -/
def is_active (tmpdir : String) (superActive : Bool) (group_names : List String) : Bool :=
  superActive && (active_groups tmpdir).any (fun g => group_names.contains g)

/-- `DiskAvailability.free_bytes` ascent loop: starting from `path`,
strip the last path segment while the current candidate is not a key of
`ansible_mounts`, at most `fuel` (32 in the source) times. -/
def findMountPoint (ansible_mounts : List (String × Mount)) : String → Nat → String
  | p, 0 => p
  | p, n + 1 =>
    if (lookupA ansible_mounts p).isSome then p
    else findMountPoint ansible_mounts (dirname p) n

/-- The diagnostic in `free_bytes`: known mount points, quoted, sorted and
comma-joined, or the literal `none` when the joined string is empty. -/
def knownMountsStr (ansible_mounts : List (String × Mount)) : String :=
  let joined :=
    joinComma ((sortStrings (ansible_mounts.map Prod.fst)).map (fun m => "\"" ++ m ++ "\""))
  if joined = "" then "none" else joined

/-- `DiskAvailability.free_bytes`: resolve `path` to a mount point within
32 parent-stripping steps, then read `size_available`; a missing mount
point or a missing field raises `OpenShiftCheckException` listing the
known mount points. -/
def free_bytes (path : String) (ansible_mounts : List (String × Mount)) : Except RunErr Q :=
  let mount_point := findMountPoint ansible_mounts path 32
  let fail : Except RunErr Q :=
    .error (.checkException
      ("Unable to determine disk availability for \"" ++ path ++
       "\". Known mount points: " ++ knownMountsStr ansible_mounts ++ "."))
  match lookupA ansible_mounts mount_point with
  | none => fail
  | some m =>
    match m.size_available with
    | none => fail
    | some v => .ok v

/-- The fail dict `\x7b'failed': True, 'msg': ...\x7d` returned by `run`. -/
structure FailResult where
  failed : Bool
  msg : String
deriving DecidableEq

/-- Lines 86–101 of `run`, for one `path` with install-table row
`recommendation`: returns `(config_bytes, recommended_bytes)`.
`config_bytes` is the user override for this path, maximised over the
host's roles and converted gigabytes → bytes (`* 10**9`);
`recommended_bytes` is the effective requirement: the install-table
maximum over roles, replaced by the upgrade-table maximum when the
context is `"upgrade"` and the upgrade table has a nonempty entry for
this path, and in every case overridden by a truthy (nonzero)
`config_bytes`.  The `or` in `config_bytes or max(...)` short-circuits,
so the upgrade maximum is not computed when `config_bytes` is nonzero. -/
def requirementParts (group_names : List String)
    (user_config : List (String × List (String × Q)))
    (context : String) (path : String) (recommendation : List (String × Q)) :
    Except RunErr (Q × Q) := do
  let installMax ← pyMax (group_names.map (fun name => getD recommendation name 0))
  let config := getD user_config path []
  let configGB ← pyMax (group_names.map (fun name => getD config name 0))
  let config_bytes := qMulInt configGB (10 ^ 9)
  let recommended_bytes := if qNZ config_bytes then config_bytes else installMax
  if context = "upgrade" then
    let recommended_upgrade_paths := getD recommended_disk_upgrade_bytes path []
    if recommended_upgrade_paths ≠ [] then
      if qNZ config_bytes then
        pure (config_bytes, config_bytes)
      else do
        let upMax ← pyMax (group_names.map (fun name => getD recommended_upgrade_paths name 0))
        pure (config_bytes, upMax)
    else
      pure (config_bytes, recommended_bytes)
  else
    pure (config_bytes, recommended_bytes)

/-- The effective requirement for one path: second component of
`requirementParts`. -/
def effectiveRequirement (group_names : List String)
    (user_config : List (String × List (String × Q)))
    (context : String) (path : String) (recommendation : List (String × Q)) :
    Except RunErr Q := do
  let p ← requirementParts group_names user_config context path recommendation
  pure p.2

/-- The guidance text lines 113–117 of the source append to a local
variable `msg` when a failure occurs under the upgrade context with a
truthy override.  `valueStr` stands for the Python `str()` rendering of
`config_bytes` interpolated by `.format(config_bytes)`.  The `return`
statement at lines 120–126 rebuilds the message from scratch and does
not use this text, so it never reaches the returned result. -/
def upgradeGuidance (valueStr : String) : String :=
  "\n\nMake sure to account for decreased disk space during an upgrade\n" ++
  "due to an existing OpenShift deployment. Please check the value of\n" ++
  "  openshift_check_min_host_disk_gb=" ++ valueStr ++ "\n" ++
  "in your Ansible inventory, and lower the recommended disk space availability\n" ++
  "if necessary for this upgrade."

/-- The base failure message of lines 106–109 and of the returned dict at
lines 120–126. -/
def failMsg (path : String) (free_bytes recommended_bytes : Q) : String :=
  "Available disk space in \"" ++ path ++ "\" (" ++ gbDisplay free_bytes ++
  " GB) is below minimum recommended (" ++ gbDisplay recommended_bytes ++ " GB)"

/-- One iteration of the `for path, recommendation in ...` loop of `run`:
free bytes via the mount resolver, effective requirement, then the
comparison.  `some` is an early `return` of the fail dict, `none` falls
through to the next path.  The local variable `_msg` mirrors the source's
`msg`, including the conditionally appended `upgradeGuidance`; the
returned dict rebuilds the base message without it, exactly as the
source's `return` statement does. -/
def checkPath (group_names : List String)
    (user_config : List (String × List (String × Q)))
    (context : String) (ansible_mounts : List (String × Mount))
    (path : String) (recommendation : List (String × Q)) :
    Except RunErr (Option FailResult) := do
  let free ← free_bytes path ansible_mounts
  let parts ← requirementParts group_names user_config context path recommendation
  if qLt free parts.2 then
    let _msg := failMsg path free parts.2 ++
      (if qNZ parts.1 && (context == "upgrade")
       then upgradeGuidance (toString parts.1.num)
       else "")
    pure (some ⟨true, failMsg path free parts.2⟩)
  else
    pure none

/-- The whole `for` loop of `run` over a requirement table: first fail
returns early, exhausting the table returns the pass dict `\x7b\x7d`
(`none`). -/
def checkPaths (group_names : List String)
    (user_config : List (String × List (String × Q)))
    (context : String) (ansible_mounts : List (String × Mount)) :
    List (String × List (String × Q)) → Except RunErr (Option FailResult)
  | [] => .ok none
  | (path, recommendation) :: rest => do
    match ← checkPath group_names user_config context ansible_mounts path recommendation with
    | some f => pure (some f)
    | none => checkPaths group_names user_config context ansible_mounts rest

/-- `DiskAvailability.run`: re-index the mounts, normalise the user
override, then walk the install table in declared order. -/
def run (tmpdir : String) (group_names : List String) (ansible_mounts : List Mount)
    (user_config : UserConf) (context : String) : Except RunErr (Option FailResult) :=
  checkPaths group_names (normalizeUserConf user_config) context
    (reindexMounts ansible_mounts) (recommended_disk_space_bytes tmpdir)

/-- A host with 50e9 bytes free on `/` and 8e9 bytes free on `/var`
(the mount table of the spec's worked example). -/
def demoMounts : List Mount :=
  [ ⟨"/", some (qInt (50 * 10 ^ 9))⟩, ⟨"/var", some (qInt (8 * 10 ^ 9))⟩ ]

set_option maxRecDepth 8000

theorem qle_refl (a : Q) : qLe a a = true := by
  simp [qLe, qLt]

theorem qle_iff (a b : Q) :
    qLe a b = true ↔ a.num * (b.den : Int) ≤ b.num * (a.den : Int) := by
  simp [qLe, qLt, Int.not_lt]

theorem qlt_iff (a b : Q) :
    qLt a b = true ↔ a.num * (b.den : Int) < b.num * (a.den : Int) := by
  simp [qLt]

theorem qle_of_qlt {a b : Q} (h : qLt a b = true) : qLe a b = true := by
  rw [qlt_iff] at h
  rw [qle_iff]
  exact le_of_lt h

theorem qle_trans {a b c : Q} (h1 : qLe a b = true) (h2 : qLe b c = true) :
    qLe a c = true := by
  rw [qle_iff] at h1 h2 ⊢
  have hb : (0 : Int) < (b.den : Int) := by exact_mod_cast b.den_pos
  have h1c := mul_le_mul_of_nonneg_right h1 (Int.natCast_nonneg c.den)
  have h2a := mul_le_mul_of_nonneg_right h2 (Int.natCast_nonneg a.den)
  nlinarith [h1c, h2a, hb]

theorem foldStep_ge_acc (xs : List Q) (acc : Q) :
    qLe acc (xs.foldl (fun acc v => if qLt acc v then v else acc) acc) = true := by
  induction xs generalizing acc with
  | nil => exact qle_refl acc
  | cons x xs ih =>
    simp only [List.foldl_cons]
    by_cases h : qLt acc x = true
    · rw [h]
      simp only [if_true]
      exact qle_trans (qle_of_qlt h) (ih x)
    · rw [Bool.not_eq_true] at h
      rw [h]
      simp only [Bool.false_eq_true, if_false]
      exact ih acc

theorem foldStep_ge_mem (xs : List Q) : ∀ (acc v : Q), v ∈ xs →
    qLe v (xs.foldl (fun acc v => if qLt acc v then v else acc) acc) = true := by
  induction xs with
  | nil => intro acc v hv; cases hv
  | cons x xs ih =>
    intro acc v hv
    simp only [List.foldl_cons]
    rcases List.mem_cons.mp hv with h | h
    · subst h
      by_cases hlt : qLt acc v = true
      · rw [hlt]
        simp only [if_true]
        exact foldStep_ge_acc xs v
      · rw [Bool.not_eq_true] at hlt
        rw [hlt]
        simp only [Bool.false_eq_true, if_false]
        have hvacc : qLe v acc = true := by
          simp only [qLe, hlt, Bool.not_false]
        exact qle_trans hvacc (foldStep_ge_acc xs acc)
    · exact ih _ v h

theorem foldStep_mem (xs : List Q) (acc : Q) :
    (xs.foldl (fun acc v => if qLt acc v then v else acc) acc) = acc ∨
    (xs.foldl (fun acc v => if qLt acc v then v else acc) acc) ∈ xs := by
  induction xs generalizing acc with
  | nil => exact Or.inl rfl
  | cons x xs ih =>
    simp only [List.foldl_cons]
    by_cases h : qLt acc x = true
    · rw [h]
      simp only [if_true]
      rcases ih x with h2 | h2
      · rw [h2]
        exact Or.inr (List.mem_cons_self x xs)
      · exact Or.inr (List.mem_cons_of_mem x h2)
    · rw [Bool.not_eq_true] at h
      rw [h]
      simp only [Bool.false_eq_true, if_false]
      rcases ih acc with h2 | h2
      · exact Or.inl h2
      · exact Or.inr (List.mem_cons_of_mem x h2)

theorem pyMax_spec (l : List Q) (hl : l ≠ []) :
    ∃ m, pyMax l = .ok m ∧ m ∈ l ∧ ∀ v ∈ l, qLe v m = true := by
  match l, hl with
  | x :: xs, _ =>
    refine ⟨xs.foldl (fun acc v => if qLt acc v then v else acc) x, rfl, ?_, ?_⟩
    · rcases foldStep_mem xs x with h | h
      · rw [h]
        exact List.mem_cons_self x xs
      · exact List.mem_cons_of_mem x h
    · intro v hv
      rcases List.mem_cons.mp hv with h | h
      · rw [h]
        exact foldStep_ge_acc xs x
      · exact foldStep_ge_mem xs x v h

theorem exceptBind_ok {ε α β : Type} (a : α) (f : α → Except ε β) :
    ((Except.ok a : Except ε α) >>= f) = f a := rfl

theorem exceptBind_err {ε α β : Type} (e : ε) (f : α → Except ε β) :
    ((Except.error e : Except ε α) >>= f) = .error e := rfl

/-- Claim C2: a bare numeric override expands to a `/var`-only mapping that
gives the number to the roles masters, nodes and etcd; a structured mapping
makes the `float()` probe raise `TypeError`, which the handler catches, and
the mapping falls through unchanged — no exception escapes. -/
theorem C2_override_parsing :
    (∀ x : Q, normalizeUserConf (.num x) =
      [("/var", [("masters", x), ("nodes", x), ("etcd", x)])]) ∧
    (∀ t : List (String × List (String × Q)),
      pyFloat (.table t) = .error () ∧ normalizeUserConf (.table t) = t) :=
  ⟨fun _ => rfl, fun _ => ⟨rfl, rfl⟩⟩

/-- Claim C7: for a nonempty host role list, the baseline requirement of a
path — `max(recommendation.get(name, 0) for name in group_names)` — is the
per-role value (default 0) of one of the host's roles, and every host
role's per-role value (default 0) is at most that maximum, so the
strictest listed role wins. -/
theorem C7_baseline_is_role_max (recommendation : List (String × Q))
    (group_names : List String) (h : group_names ≠ []) :
    ∃ m, pyMax (group_names.map (fun name => getD recommendation name 0)) = .ok m ∧
      (∃ g ∈ group_names, m = getD recommendation g 0) ∧
      (∀ g ∈ group_names, qLe (getD recommendation g 0) m = true) := by
  have hne : group_names.map (fun name => getD recommendation name 0) ≠ [] := by
    simpa using h
  obtain ⟨m, hm, hmem, hge⟩ := pyMax_spec _ hne
  refine ⟨m, hm, ?_, ?_⟩
  · obtain ⟨g, hg, hgm⟩ := List.mem_map.mp hmem
    exact ⟨g, hg, hgm.symm⟩
  · intro g hg
    exact hge _ (List.mem_map_of_mem _ hg)

/-- Claim C7 witness: a host in both the masters and nodes roles gets the
masters requirement (40e9 bytes) for `/var`, the larger of the two. -/
theorem C7_baseline_is_role_max_witness :
    ∃ m, pyMax (["masters", "nodes"].map
        (fun name => getD [("masters", qInt (40 * 10 ^ 9)), ("nodes", qInt (15 * 10 ^ 9)),
          ("etcd", qInt (20 * 10 ^ 9))] name 0)) = .ok m ∧
      (∃ g ∈ ["masters", "nodes"], m = getD [("masters", qInt (40 * 10 ^ 9)),
        ("nodes", qInt (15 * 10 ^ 9)), ("etcd", qInt (20 * 10 ^ 9))] g 0) ∧
      (∀ g ∈ ["masters", "nodes"], qLe (getD [("masters", qInt (40 * 10 ^ 9)),
        ("nodes", qInt (15 * 10 ^ 9)), ("etcd", qInt (20 * 10 ^ 9))] g 0) m = true) :=
  C7_baseline_is_role_max _ _ (by decide)

/-- Claim C4: a host sharing no role with the install table is inactive no
matter what the inherited predicate says; a host sharing at least one role
is active exactly when the inherited predicate allows it. -/
theorem C4_activation_gate (tmpdir : String) (superActive : Bool)
    (group_names : List String) :
    ((∀ g ∈ group_names, g ∉ active_groups tmpdir) →
      is_active tmpdir superActive group_names = false) ∧
    ((∃ g ∈ group_names, g ∈ active_groups tmpdir) →
      is_active tmpdir superActive group_names = superActive) := by
  constructor
  · intro h
    have hany : (active_groups tmpdir).any (fun g => group_names.contains g) = false := by
      simp only [List.any_eq_false, List.contains, List.elem_iff]
      intro a ha hmem
      exact h a hmem ha
    simp only [is_active, hany, Bool.and_false]
  · intro ⟨g, hg, hmem⟩
    have hany : (active_groups tmpdir).any (fun g => group_names.contains g) = true := by
      simp only [List.any_eq_true, List.contains, List.elem_iff]
      exact ⟨g, hmem, hg⟩
    simp only [is_active, hany, Bool.and_true]

/-- Claim C4 witness: a host only in an unlisted role is skipped even when
the inherited predicate is true; a nodes host follows the inherited
predicate (here false, so inactive). -/
theorem C4_activation_gate_witness :
    is_active "/tmp" true ["unrelated"] = false ∧
    is_active "/tmp" false ["nodes"] = false := by
  constructor
  · exact (C4_activation_gate "/tmp" true ["unrelated"]).1 (by decide)
  · exact (C4_activation_gate "/tmp" false ["nodes"]).2 ⟨"nodes", by decide, by decide⟩

/-- Claim C8: with mounts `/` ↦ 50e9 and `/var` ↦ 8e9 free bytes, a nodes
host and no override: under the install context the `/var` requirement is
15e9, so the check fails with a message containing `/var`, `8.0 GB` and
`15.0 GB`; under the upgrade context the requirement drops to 5e9 and the
whole check passes. -/
theorem C8_install_fail_upgrade_pass :
    (run "/tmp" ["nodes"] demoMounts (.table []) "" =
      .ok (some ⟨true,
        "Available disk space in \"/var\" (8.0 GB) is below minimum recommended (15.0 GB)"⟩) ∧
      "/var".data <:+:
        "Available disk space in \"/var\" (8.0 GB) is below minimum recommended (15.0 GB)".data ∧
      "8.0 GB".data <:+:
        "Available disk space in \"/var\" (8.0 GB) is below minimum recommended (15.0 GB)".data ∧
      "15.0 GB".data <:+:
        "Available disk space in \"/var\" (8.0 GB) is below minimum recommended (15.0 GB)".data) ∧
    run "/tmp" ["nodes"] demoMounts (.table []) "upgrade" = .ok none := by
  decide

/-- Claim C1 is refuted by the source: on a failing evaluation under the
upgrade context with a nonzero override (override 100 GB, free 8e9 bytes
on `/var`), the returned fail msg is the bare base message.  Lines 111–118
of the source append the guidance to a local variable, but the `return`
statement at lines 120–126 formats the message again from scratch, so the
returned msg never mentions `openshift_check_min_host_disk_gb` — though
the discarded local value did. -/
theorem C1_returned_msg_lacks_guidance :
    run "/tmp" ["nodes"] demoMounts (.num 100) "upgrade" =
      .ok (some ⟨true,
        "Available disk space in \"/var\" (8.0 GB) is below minimum recommended (100.0 GB)"⟩) ∧
    ¬ ("openshift_check_min_host_disk_gb".data <:+:
      "Available disk space in \"/var\" (8.0 GB) is below minimum recommended (100.0 GB)".data) ∧
    ("openshift_check_min_host_disk_gb".data <:+:
      ("Available disk space in \"/var\" (8.0 GB) is below minimum recommended (100.0 GB)" ++
        upgradeGuidance (toString ((100 : Int) * 10 ^ 9))).data) := by
  decide

/-- Claim C10: with an empty `group_names` and a mount table in which the
first monitored path `/var` resolves, `run` reaches `max()` over an empty
sequence and raises `ValueError` instead of returning a verdict; and the
activation gate guarantees a nonempty role list, since an empty list
intersects no role of the table. -/
theorem C10_empty_roles_raise (tmpdir : String) (ansible_mounts : List Mount)
    (user_config : UserConf) (context : String) (v : Q)
    (hfree : free_bytes "/var" (reindexMounts ansible_mounts) = .ok v) :
    run tmpdir [] ansible_mounts user_config context = .error .valueError ∧
    (∀ superActive gn, is_active tmpdir superActive gn = true → gn ≠ []) := by
  constructor
  · show checkPaths [] (normalizeUserConf user_config) context
      (reindexMounts ansible_mounts) (recommended_disk_space_bytes tmpdir) = .error .valueError
    simp only [recommended_disk_space_bytes, checkPaths, checkPath, requirementParts,
      List.map_nil, pyMax, hfree, exceptBind_ok, exceptBind_err]
  · intro superActive gn h hgn
    subst hgn
    simp [is_active, List.contains] at h

/-- Claim C10 witness: concrete empty-role run on the demo mounts raises
`ValueError`, and the activation gate rejects the empty role list. -/
theorem C10_empty_roles_raise_witness :
    free_bytes "/var" (reindexMounts demoMounts) = .ok (qInt (8 * 10 ^ 9)) ∧
    run "/tmp" [] demoMounts (.table []) "" = .error .valueError ∧
    is_active "/tmp" true [] = false := by
  refine ⟨by decide, ?_, ?_⟩
  · exact (C10_empty_roles_raise "/tmp" demoMounts (.table []) ""
      (qInt (8 * 10 ^ 9)) (by decide)).1
  · cases hcase : is_active "/tmp" true [] with
    | false => rfl
    | true =>
      exact absurd rfl ((C10_empty_roles_raise "/tmp" demoMounts (.table []) ""
        (qInt (8 * 10 ^ 9)) (by decide)).2 true [] hcase)

theorem findMountPoint_iterate (ansible_mounts : List (String × Mount)) :
    ∀ (fuel : Nat) (p : String), ∃ k ≤ fuel,
      findMountPoint ansible_mounts p fuel = dirname^[k] p := by
  intro fuel
  induction fuel with
  | zero => intro p; exact ⟨0, Nat.le_refl 0, rfl⟩
  | succ n ih =>
    intro p
    by_cases h : (lookupA ansible_mounts p).isSome = true
    · exact ⟨0, Nat.zero_le _, by simp [findMountPoint, h]⟩
    · obtain ⟨k, hk, he⟩ := ih (dirname p)
      refine ⟨k + 1, Nat.succ_le_succ hk, ?_⟩
      rw [Function.iterate_succ_apply]
      simpa [findMountPoint, h] using he

theorem foldl_commaAppend_len (xs : List String) :
    ∀ acc : String, acc.length ≤ (xs.foldl (fun a v => a ++ ", " ++ v) acc).length := by
  induction xs with
  | nil => intro acc; exact Nat.le_refl _
  | cons x xs ih =>
    intro acc
    refine Nat.le_trans ?_ (ih (acc ++ ", " ++ x))
    simp only [String.length_append]
    omega

theorem joinComma_quoted_ne_empty (l : List String) (h : l ≠ []) :
    joinComma (l.map (fun m => "\"" ++ m ++ "\"")) ≠ "" := by
  match l, h with
  | x :: xs, _ =>
    intro hc
    have hlen := foldl_commaAppend_len (xs.map (fun m => "\"" ++ m ++ "\""))
      ("\"" ++ x ++ "\"")
    rw [List.map_cons] at hc
    rw [joinComma] at hc
    rw [hc] at hlen
    simp [String.length_append] at hlen
    exact absurd hlen.2 (by decide)

theorem insertSorted_ne_nil (s : String) (l : List String) : insertSorted s l ≠ [] := by
  cases l with
  | nil => simp [insertSorted]
  | cons t rest =>
    simp only [insertSorted]
    split <;> simp

theorem sortStrings_ne_nil {l : List String} (h : l ≠ []) : sortStrings l ≠ [] := by
  match l, h with
  | s :: rest, _ =>
    show insertSorted s (sortStrings rest) ≠ []
    exact insertSorted_ne_nil s (sortStrings rest)

theorem knownMountsStr_cases (ansible_mounts : List (String × Mount)) :
    knownMountsStr ansible_mounts =
      if ansible_mounts = [] then "none"
      else joinComma ((sortStrings (ansible_mounts.map Prod.fst)).map
        (fun m => "\"" ++ m ++ "\"")) := by
  cases ansible_mounts with
  | nil => rfl
  | cons m ms =>
    have hne : sortStrings ((m :: ms).map Prod.fst) ≠ [] :=
      sortStrings_ne_nil (by simp)
    have hj := joinComma_quoted_ne_empty _ hne
    simp only [knownMountsStr, if_neg hj, if_neg (List.cons_ne_nil m ms)]

/-- Claim C3: the mount resolver strips at most 32 parents (the ascent is a
total, fuelled function, so it always terminates); when no candidate
within the bound is a key of the mount table, or when the resolved record
lacks the `size_available` field, `free_bytes` returns the distinguishable
`OpenShiftCheckException` error whose message lists the known mount
points, quoted, sorted and comma-joined, or the literal text `none` for an
empty mount table. -/
theorem C3_resolution_failure (path : String) (ansible_mounts : List (String × Mount))
    (h : (∀ k ≤ 32, lookupA ansible_mounts (dirname^[k] path) = none) ∨
         (∃ m, lookupA ansible_mounts (findMountPoint ansible_mounts path 32) = some m ∧
            m.size_available = none)) :
    free_bytes path ansible_mounts =
      .error (.checkException
        ("Unable to determine disk availability for \"" ++ path ++
         "\". Known mount points: " ++
         (if ansible_mounts = [] then "none"
          else joinComma ((sortStrings (ansible_mounts.map Prod.fst)).map
            (fun m => "\"" ++ m ++ "\""))) ++ ".")) := by
  rw [← knownMountsStr_cases]
  rcases h with h | ⟨m, hm, hsz⟩
  · have hnone : lookupA ansible_mounts (findMountPoint ansible_mounts path 32) = none := by
      obtain ⟨k, hk, he⟩ := findMountPoint_iterate ansible_mounts 32 path
      rw [he]
      exact h k hk
    simp only [free_bytes, hnone]
  · simp only [free_bytes, hm, hsz]

/-- Claim C3 witness: with an empty mount table, resolving `/a/b` fails
with the diagnostic listing the known mount points as `none`. -/
theorem C3_resolution_failure_witness :
    free_bytes "/a/b" [] =
      .error (.checkException
        "Unable to determine disk availability for \"/a/b\". Known mount points: none.") := by
  have h := C3_resolution_failure "/a/b" [] (Or.inl (fun k _ => rfl))
  simpa using h

/-- Claim C5: under the upgrade context the requirement of a path with a
(nonempty) upgrade-table entry is recomputed as the maximum over the
host's roles of the upgrade values, a path without an entry keeps its
install requirement (`im`), and in both cases a nonzero override
(`cgb * 10^9` bytes) takes precedence. -/
theorem C5_upgrade_requirement (group_names : List String)
    (user_config : List (String × List (String × Q)))
    (path : String) (recommendation : List (String × Q)) (im cgb : Q)
    (him : pyMax (group_names.map (fun name => getD recommendation name 0)) = .ok im)
    (hcg : pyMax (group_names.map
      (fun name => getD (getD user_config path []) name 0)) = .ok cgb) :
    (getD recommended_disk_upgrade_bytes path [] = [] →
      effectiveRequirement group_names user_config "upgrade" path recommendation =
        .ok (if qNZ (qMulInt cgb (10 ^ 9)) then qMulInt cgb (10 ^ 9) else im)) ∧
    (∀ um, getD recommended_disk_upgrade_bytes path [] ≠ [] →
      pyMax (group_names.map
        (fun name => getD (getD recommended_disk_upgrade_bytes path []) name 0)) = .ok um →
      effectiveRequirement group_names user_config "upgrade" path recommendation =
        .ok (if qNZ (qMulInt cgb (10 ^ 9)) then qMulInt cgb (10 ^ 9) else um)) := by
  constructor
  · intro hup
    simp [effectiveRequirement, requirementParts, him, hcg, hup,
      exceptBind_ok, exceptBind_err]
  · intro um hup hum
    simp [effectiveRequirement, requirementParts, him, hcg, hup, hum,
      exceptBind_ok, exceptBind_err]
    all_goals cases hnz : qNZ (qMulInt cgb 1000000000) <;> simp [hnz, Except.map, pure, Except.pure]

/-- Claim C5 witness: a nodes host without override under the upgrade
context: the `/var` requirement is recomputed to 5e9 bytes from the
upgrade table, while `/usr/local/bin`, absent from the upgrade table,
keeps its install requirement of 1e9 bytes. -/
theorem C5_upgrade_requirement_witness :
    effectiveRequirement ["nodes"] [] "upgrade" "/var"
      [("masters", qInt (40 * 10 ^ 9)), ("nodes", qInt (15 * 10 ^ 9)),
        ("etcd", qInt (20 * 10 ^ 9))] = .ok (qInt (5 * 10 ^ 9)) ∧
    effectiveRequirement ["nodes"] [] "upgrade" "/usr/local/bin"
      [("masters", qInt (1 * 10 ^ 9)), ("nodes", qInt (1 * 10 ^ 9)),
        ("etcd", qInt (1 * 10 ^ 9))] = .ok (qInt (1 * 10 ^ 9)) := by
  constructor
  · have h := (C5_upgrade_requirement ["nodes"] [] "/var"
      [("masters", qInt (40 * 10 ^ 9)), ("nodes", qInt (15 * 10 ^ 9)),
        ("etcd", qInt (20 * 10 ^ 9))] (qInt (15 * 10 ^ 9)) 0
      (by decide) (by decide)).2 (qInt (5 * 10 ^ 9)) (by decide) (by decide)
    simpa using h
  · have h := (C5_upgrade_requirement ["nodes"] [] "/usr/local/bin"
      [("masters", qInt (1 * 10 ^ 9)), ("nodes", qInt (1 * 10 ^ 9)),
        ("etcd", qInt (1 * 10 ^ 9))] (qInt (1 * 10 ^ 9)) 0
      (by decide) (by decide)).1 (by decide)
    simpa using h

theorem checkPaths_cons (group_names : List String)
    (user_config : List (String × List (String × Q)))
    (context : String) (ansible_mounts : List (String × Mount))
    (e : String × List (String × Q)) (rest : List (String × List (String × Q))) :
    checkPaths group_names user_config context ansible_mounts (e :: rest) =
      (checkPath group_names user_config context ansible_mounts e.1 e.2 >>= fun res =>
        match res with
        | some f => pure (some f)
        | none => checkPaths group_names user_config context ansible_mounts rest) := by
  obtain ⟨p, r⟩ := e
  rfl

theorem checkPaths_all_pass (group_names : List String)
    (user_config : List (String × List (String × Q)))
    (context : String) (ansible_mounts : List (String × Mount)) :
    ∀ table, (∀ e ∈ table,
        checkPath group_names user_config context ansible_mounts e.1 e.2 = .ok none) →
      checkPaths group_names user_config context ansible_mounts table = .ok none := by
  intro table
  induction table with
  | nil => intro _; rfl
  | cons e rest ih =>
    intro h
    rw [checkPaths_cons, h e (List.mem_cons_self e rest), exceptBind_ok]
    exact ih (fun x hx => h x (List.mem_cons_of_mem e hx))

theorem checkPaths_first_fail (group_names : List String)
    (user_config : List (String × List (String × Q)))
    (context : String) (ansible_mounts : List (String × Mount)) :
    ∀ pre (e : String × List (String × Q)) rest f,
      (∀ x ∈ pre, checkPath group_names user_config context ansible_mounts x.1 x.2 = .ok none) →
      checkPath group_names user_config context ansible_mounts e.1 e.2 = .ok (some f) →
      checkPaths group_names user_config context ansible_mounts (pre ++ e :: rest) =
        .ok (some f) := by
  intro pre
  induction pre with
  | nil =>
    intro e rest f _ hf
    rw [List.nil_append, checkPaths_cons, hf, exceptBind_ok]
    rfl
  | cons x pre ih =>
    intro e rest f hpre hf
    rw [List.cons_append, checkPaths_cons, hpre x (List.mem_cons_self x pre), exceptBind_ok]
    exact ih e rest f (fun y hy => hpre y (List.mem_cons_of_mem x hy)) hf

/-- Claim C6: the paths are examined in the table's declared order with
fail-fast semantics: when every entry of a prefix passes and the next
entry fails, that entry's fail dict is the result and the remaining
entries are never consulted (nothing is assumed about them — they need
not even resolve); when every entry passes, the result is the empty pass
record; and `run` is exactly this walk over the install table in its
declared order. -/
theorem C6_declared_order_first_fail (group_names : List String)
    (user_config : List (String × List (String × Q)))
    (context : String) (ansible_mounts : List (String × Mount)) :
    (∀ table, (∀ e ∈ table,
        checkPath group_names user_config context ansible_mounts e.1 e.2 = .ok none) →
      checkPaths group_names user_config context ansible_mounts table = .ok none) ∧
    (∀ pre (e : String × List (String × Q)) rest f,
      (∀ x ∈ pre, checkPath group_names user_config context ansible_mounts x.1 x.2 = .ok none) →
      checkPath group_names user_config context ansible_mounts e.1 e.2 = .ok (some f) →
      checkPaths group_names user_config context ansible_mounts (pre ++ e :: rest) =
        .ok (some f)) ∧
    (∀ tmpdir gn am uc ctx,
      run tmpdir gn am uc ctx = checkPaths gn (normalizeUserConf uc) ctx
        (reindexMounts am) (recommended_disk_space_bytes tmpdir)) :=
  ⟨checkPaths_all_pass group_names user_config context ansible_mounts,
   checkPaths_first_fail group_names user_config context ansible_mounts,
   fun _ _ _ _ _ => rfl⟩

/-- Claim C6 witness: in a mount table holding only `/var` (8e9 free), a
two-entry table whose first entry `/var` is deficient returns that fail
result even though the second entry `/other` cannot resolve at all (its
resolution would raise, as the second conjunct shows it was never
reached). -/
theorem C6_declared_order_first_fail_witness :
    checkPaths ["nodes"] [] "" (reindexMounts [⟨"/var", some (qInt (8 * 10 ^ 9))⟩])
      [("/var", [("nodes", qInt (15 * 10 ^ 9))]), ("/other", [("nodes", qInt (10 ^ 9))])] =
      .ok (some ⟨true,
        "Available disk space in \"/var\" (8.0 GB) is below minimum recommended (15.0 GB)"⟩) ∧
    free_bytes "/other" (reindexMounts [⟨"/var", some (qInt (8 * 10 ^ 9))⟩]) =
      .error (.checkException
        "Unable to determine disk availability for \"/other\". Known mount points: \"/var\".") := by
  constructor
  · exact (C6_declared_order_first_fail ["nodes"] [] ""
      (reindexMounts [⟨"/var", some (qInt (8 * 10 ^ 9))⟩])).2.1
      [] ("/var", [("nodes", qInt (15 * 10 ^ 9))]) [("/other", [("nodes", qInt (10 ^ 9))])]
      ⟨true, "Available disk space in \"/var\" (8.0 GB) is below minimum recommended (15.0 GB)"⟩
      (fun x hx => absurd hx (List.not_mem_nil x))
      (by decide)
  · decide

/-- Claim C9: decimal-gigabyte numeric semantics. (i) Every built-in
threshold of the install table is a natural number of decimal gigabytes
times `10^9` bytes, (ii) likewise for the upgrade table, (iii) a nonzero
override becomes the effective requirement as exactly its gigabyte
maximum multiplied by `10^9` — in every context — and (iv) every fail
result carries the base message whose figures are the observed free bytes
and required bytes, each divided by `10^9` and rendered with one decimal
place (`gbDisplay`). -/
theorem C9_decimal_gigabytes :
    (∀ tmpdir : String, ∀ e ∈ recommended_disk_space_bytes tmpdir, ∀ r ∈ e.2,
      ∃ k : Nat, r.2 = qInt ((k : Int) * 10 ^ 9)) ∧
    (∀ e ∈ recommended_disk_upgrade_bytes, ∀ r ∈ e.2,
      ∃ k : Nat, r.2 = qInt ((k : Int) * 10 ^ 9)) ∧
    (∀ (group_names : List String) (user_config : List (String × List (String × Q)))
        (context path : String) (recommendation : List (String × Q)) (cgb : Q),
      pyMax (group_names.map
        (fun name => getD (getD user_config path []) name 0)) = .ok cgb →
      qNZ (qMulInt cgb (10 ^ 9)) = true →
      effectiveRequirement group_names user_config context path recommendation =
        .ok (qMulInt cgb (10 ^ 9))) ∧
    (∀ (group_names : List String) (user_config : List (String × List (String × Q)))
        (context : String) (ansible_mounts : List (String × Mount))
        (path : String) (recommendation : List (String × Q)) (f : FailResult),
      checkPath group_names user_config context ansible_mounts path recommendation =
        .ok (some f) →
      ∃ free req, qLt free req = true ∧
        f = ⟨true, "Available disk space in \"" ++ path ++ "\" (" ++ gbDisplay free ++
          " GB) is below minimum recommended (" ++ gbDisplay req ++ " GB)"⟩) := by
  refine ⟨?_, ?_, ?_, ?_⟩
  · intro tmpdir e he r hr
    simp only [recommended_disk_space_bytes, List.mem_cons, List.not_mem_nil,
      or_false] at he
    rcases he with he | he | he <;> subst he <;>
      simp only [List.mem_cons, List.not_mem_nil, or_false] at hr <;>
      rcases hr with hr | hr | hr <;> subst hr
    · exact ⟨40, by decide⟩
    · exact ⟨15, by decide⟩
    · exact ⟨20, by decide⟩
    all_goals exact ⟨1, by decide⟩
  · intro e he r hr
    simp only [recommended_disk_upgrade_bytes, List.mem_cons, List.not_mem_nil,
      or_false] at he
    subst he
    simp only [List.mem_cons, List.not_mem_nil, or_false] at hr
    rcases hr with hr | hr | hr <;> subst hr
    · exact ⟨10, by decide⟩
    · exact ⟨5, by decide⟩
    · exact ⟨5, by decide⟩
  · intro group_names user_config context path recommendation cgb hcg hnz
    have hgn : group_names ≠ [] := by
      intro hg
      subst hg
      simp [pyMax] at hcg
    have hnz1000 : qNZ (qMulInt cgb 1000000000) = true := by
      have : (10 : Int) ^ 9 = 1000000000 := by norm_num
      rwa [this] at hnz
    obtain ⟨im, him, _, _⟩ := pyMax_spec
      (group_names.map (fun name => getD recommendation name 0)) (by simpa using hgn)
    by_cases hctx : context = "upgrade"
    · subst hctx
      by_cases hup : getD recommended_disk_upgrade_bytes path [] = []
      · simp [effectiveRequirement, requirementParts, him, hcg, hup, hnz1000,
          exceptBind_ok, exceptBind_err, Except.map, pure, Except.pure]
      · simp [effectiveRequirement, requirementParts, him, hcg, hup, hnz1000,
          exceptBind_ok, exceptBind_err, Except.map, pure, Except.pure]
    · simp [effectiveRequirement, requirementParts, him, hcg, hctx, hnz1000,
        exceptBind_ok, exceptBind_err, Except.map, pure, Except.pure]
  · intro group_names user_config context ansible_mounts path recommendation f hcp
    cases hfb : free_bytes path ansible_mounts with
    | error e =>
      rw [checkPath] at hcp
      rw [hfb, exceptBind_err] at hcp
      cases hcp
    | ok free =>
      rw [checkPath] at hcp
      rw [hfb, exceptBind_ok] at hcp
      cases hrp : requirementParts group_names user_config context path recommendation with
      | error e =>
        rw [hrp, exceptBind_err] at hcp
        cases hcp
      | ok parts =>
        rw [hrp, exceptBind_ok] at hcp
        by_cases hlt : qLt free parts.2 = true
        · rw [if_pos hlt] at hcp
          refine ⟨free, parts.2, hlt, ?_⟩
          have := (Except.ok.inj hcp)
          have hf := (Option.some.inj this)
          exact hf.symm
        · rw [Bool.not_eq_true] at hlt
          rw [hlt] at hcp
          simp only [Bool.false_eq_true, if_false] at hcp
          exact Option.noConfusion (Except.ok.inj hcp)

/-- Claim C9 witness: the `/var`-nodes install threshold is a whole number
of decimal gigabytes; a 30 GB override under the upgrade context yields
exactly 30×10^9 bytes; and a concrete fail result's message renders its
byte counts through `gbDisplay`. -/
theorem C9_decimal_gigabytes_witness :
    (∃ k : Nat,
      (("nodes", qInt (15 * 10 ^ 9)) : String × Q).2 = qInt ((k : Int) * 10 ^ 9)) ∧
    effectiveRequirement ["nodes"] [("/var", [("nodes", qInt 30)])] "upgrade" "/var"
      [("nodes", qInt (15 * 10 ^ 9))] = .ok (qMulInt (qInt 30) (10 ^ 9)) ∧
    (∃ free req, qLt free req = true ∧
      (⟨true,
        "Available disk space in \"/var\" (8.0 GB) is below minimum recommended (15.0 GB)"⟩ :
          FailResult) =
        ⟨true, "Available disk space in \"" ++ "/var" ++ "\" (" ++ gbDisplay free ++
          " GB) is below minimum recommended (" ++ gbDisplay req ++ " GB)"⟩) := by
  refine ⟨?_, ?_, ?_⟩
  · exact C9_decimal_gigabytes.1 "/tmp"
      ("/var", [("masters", qInt (40 * 10 ^ 9)), ("nodes", qInt (15 * 10 ^ 9)),
        ("etcd", qInt (20 * 10 ^ 9))]) (by decide)
      ("nodes", qInt (15 * 10 ^ 9)) (by decide)
  · exact C9_decimal_gigabytes.2.2.1 ["nodes"] [("/var", [("nodes", qInt 30)])]
      "upgrade" "/var" [("nodes", qInt (15 * 10 ^ 9))] (qInt 30) (by decide) (by decide)
  · exact C9_decimal_gigabytes.2.2.2 ["nodes"] [] "" (reindexMounts demoMounts)
      "/var" [("nodes", qInt (15 * 10 ^ 9))]
      ⟨true,
        "Available disk space in \"/var\" (8.0 GB) is below minimum recommended (15.0 GB)"⟩
      (by decide)

end DiskAvail
